import Mathlib

/-!
Verification of the open.mp gangzone component and the Pawn timer ID
allocator, as a shallow embedding of
`src/Server/Components/GangZones/gangzone.cpp` and
`src/Server/Components/Pawn/timers.hpp`.

Coordinates are modelled as rationals; the source performs only order
comparisons on them, so the embedding is order-faithful.  Machine `int`
values stored in the per-player ID table are modelled as `Int` (the pool
size is tiny, so no overflow arises in the source); the timer index is a
`uint32_t`, modelled as `Nat` values bounded by `UINT_MAX`.
-/

/-- Sentinel `INVALID_GANG_ZONE_ID` from the SDK headers (value `-1`,
used by the source as both "unset field" and "not found" return). -/
def INVALID_GANG_ZONE_ID : Int := -1

/-- Planar vector, embedding `Vector2` (only `x`/`y` are read by the code). -/
structure Vector2 where
  x : ℚ
  y : ℚ
deriving DecidableEq, Repr

/-- Spatial vector, embedding `Vector3` from the source (renamed: Mathlib already declares `Vector3`). -/
structure Vec3 where
  x : ℚ
  y : ℚ
  z : ℚ
deriving DecidableEq, Repr

/-- Embeds `GangZonePos`: the axis-aligned rectangle of a zone. -/
structure GangZonePos where
  min : Vector2
  max : Vector2
deriving DecidableEq, Repr

/-- The containment test from `GangZonesComponent::onUpdate`
(gangzone.cpp line 184):
`playerPos.x >= pos.min.x && playerPos.x <= pos.max.x &&
 playerPos.y >= pos.min.y && playerPos.y <= pos.max.y`. -/
def isPlayerInZoneArea (playerPos : Vec3) (pos : GangZonePos) : Bool :=
  decide (playerPos.x ≥ pos.min.x) && decide (playerPos.x ≤ pos.max.x)
    && decide (playerPos.y ≥ pos.min.y) && decide (playerPos.y ≤ pos.max.y)

namespace PlayerGangZoneData

/-- One slot of `PlayerGangZoneData::usedIDs_`
(struct `ExternaGangZoneID { int Private; int Global; }`). -/
structure ExternaGangZoneID where
  Private : Int
  Global : Int
deriving DecidableEq, Repr

/-- Embedding of the `usedIDs_` array as a list of slots (the C++
`StaticArray` has fixed length `GANG_ZONE_POOL_SIZE`; the list length
plays that role). -/
abbrev UsedIDs := List ExternaGangZoneID

/-- Shared loop shape of `findUnusedID` / `getExternalID` /
`getInternalID`: scan slots in index order, return the first index whose
slot satisfies `p`, else `INVALID_GANG_ZONE_ID`. -/
def scanIdx (p : ExternaGangZoneID → Bool) : UsedIDs → Nat → Int
  | [], _ => INVALID_GANG_ZONE_ID
  | e :: rest, i => if p e then (i : Int) else scanIdx p rest (i + 1)

/-- Slot freeness used by `findUnusedID` (gangzone.cpp line 27): both
fields equal `INVALID_GANG_ZONE_ID`. -/
def slotFree (e : ExternaGangZoneID) : Bool :=
  decide (e.Global = INVALID_GANG_ZONE_ID) && decide (e.Private = INVALID_GANG_ZONE_ID)

/-- Embeds `PlayerGangZoneData::findUnusedID` (gangzone.cpp lines 23-33). -/
def findUnusedID (t : UsedIDs) : Int :=
  scanIdx slotFree t 0

/-- Embeds `PlayerGangZoneData::getExternalID` (gangzone.cpp lines 56-66). -/
def getExternalID (t : UsedIDs) (zoneid : Int) : Int :=
  scanIdx (fun e => decide (e.Global = zoneid)) t 0

/-- Embeds `PlayerGangZoneData::getInternalID` (gangzone.cpp lines 68-78). -/
def getInternalID (t : UsedIDs) (zoneid : Int) : Int :=
  scanIdx (fun e => decide (e.Private = zoneid)) t 0

/-- Write `usedIDs_[i].Global = v` (list update at index `i`). -/
def setGlobalAt : UsedIDs → Nat → Int → UsedIDs
  | [], _, _ => []
  | e :: rest, 0, v => { e with Global := v } :: rest
  | e :: rest, i + 1, v => e :: setGlobalAt rest i v

/-- Write `usedIDs_[i].Private = v` (list update at index `i`). -/
def setPrivateAt : UsedIDs → Nat → Int → UsedIDs
  | [], _, _ => []
  | e :: rest, 0, v => { e with Private := v } :: rest
  | e :: rest, i + 1, v => e :: setPrivateAt rest i v

/-- Embeds `PlayerGangZoneData::reserveExternalID` (gangzone.cpp lines 80-89);
returns the C++ return value together with the updated table. -/
def reserveExternalID (t : UsedIDs) (zoneid : Int) : Int × UsedIDs :=
  let i := findUnusedID t
  if i = INVALID_GANG_ZONE_ID then
    (INVALID_GANG_ZONE_ID, t)
  else
    (i, setGlobalAt t i.toNat zoneid)

/-- Embeds `PlayerGangZoneData::reserveInternalID` (gangzone.cpp lines 91-100). -/
def reserveInternalID (t : UsedIDs) (zoneid : Int) : Int × UsedIDs :=
  let i := findUnusedID t
  if i = INVALID_GANG_ZONE_ID then
    (INVALID_GANG_ZONE_ID, t)
  else
    (i, setPrivateAt t i.toNat zoneid)

/-- Embeds `PlayerGangZoneData::releaseExternalID` (gangzone.cpp lines 102-111). -/
def releaseExternalID (t : UsedIDs) (zoneid : Int) : Int × UsedIDs :=
  let i := getExternalID t zoneid
  if i = INVALID_GANG_ZONE_ID then
    (INVALID_GANG_ZONE_ID, t)
  else
    (i, setGlobalAt t i.toNat INVALID_GANG_ZONE_ID)

/-- Embeds `PlayerGangZoneData::releaseInternalID` (gangzone.cpp lines 113-122). -/
def releaseInternalID (t : UsedIDs) (zoneid : Int) : Int × UsedIDs :=
  let i := getInternalID t zoneid
  if i = INVALID_GANG_ZONE_ID then
    (INVALID_GANG_ZONE_ID, t)
  else
    (i, setPrivateAt t i.toNat INVALID_GANG_ZONE_ID)

/-- Embeds `PlayerGangZoneData::reset` (gangzone.cpp lines 46-54): set both
fields of every slot to `INVALID_GANG_ZONE_ID`. -/
def reset (t : UsedIDs) : UsedIDs :=
  t.map (fun _ => ⟨INVALID_GANG_ZONE_ID, INVALID_GANG_ZONE_ID⟩)

/-- A freshly constructed table of `n` slots (the constructor calls
`reset`). -/
def emptyTable (n : Nat) : UsedIDs :=
  List.replicate n ⟨INVALID_GANG_ZONE_ID, INVALID_GANG_ZONE_ID⟩

end PlayerGangZoneData

/-- Membership-change events dispatched by the sweep.  Each constructor
records the zone's `isPlayerInside` flag for the affected player as it
stands at dispatch time (in the source, `setPlayerInside` runs before
`eventDispatcher.dispatch`, so a handler reading the flag sees the
updated value). -/
inductive ZoneEvent where
  | enter (insideAtDispatch : Bool)
  | leave (insideAtDispatch : Bool)
deriving DecidableEq, Repr

/-- Mutable state of one `GangZone`: its rectangle (`getPosition`) and
the set of player ids recorded inside it. -/
structure GangZoneState where
  pos : GangZonePos
  playersInside : Finset ℕ
deriving DecidableEq

/-- Modelled from the spec: `GangZone::isPlayerInside` (its definition
lives in the gangzone.hpp/GangZone class body, not under src/) reads the
recorded per-(zone, player) membership flag — "the previously recorded
membership flag for (entity, actor)"; absence means outside. -/
def GangZoneState.isPlayerInside (z : GangZoneState) (pid : ℕ) : Bool :=
  decide (pid ∈ z.playersInside)

/-- Modelled from the spec: `GangZone::setPlayerInside` (definition not
under src/) records (`status = true`) or clears (`status = false`) the
membership flag — "mark membership = inside" and its symmetric clear. -/
def GangZoneState.setPlayerInside (z : GangZoneState) (pid : ℕ) (status : Bool) :
    GangZoneState :=
  if status then { z with playersInside := insert pid z.playersInside }
  else { z with playersInside := z.playersInside.erase pid }

/-- Modelled from the spec: `GangZone::destream` (definition not under
src/) clears all active memberships of the zone — "clear any active
memberships before physical destruction". -/
def GangZoneState.destream (z : GangZoneState) : GangZoneState :=
  { z with playersInside := ∅ }

/-- Modelled from the spec: `GangZone::removeFor` (definition not under
src/) purges a detaching player's membership record from the zone —
"purge all membership records referencing that actor from every
entity's inside-set". -/
def GangZoneState.removeFor (pid : ℕ) (z : GangZoneState) : GangZoneState :=
  { z with playersInside := z.playersInside.erase pid }

/-- Body of the per-zone loop of `GangZonesComponent::onUpdate`
(gangzone.cpp lines 175-204) for one (player, zone) pair on one tick.
`visible` is the value of `gangzone->isShownForPlayer(player)` (an
external predicate).  Returns the updated zone state and the list of
events dispatched for this pair on this tick. -/
def zoneSweepStep (visible : Bool) (playerPos : Vec3) (pid : ℕ) (z : GangZoneState) :
    GangZoneState × List ZoneEvent :=
  if !visible then (z, [])
  else
    let isPlayerInInsideList := z.isPlayerInside pid
    let inZoneArea := isPlayerInZoneArea playerPos z.pos
    if inZoneArea && !isPlayerInInsideList then
      let z2 := z.setPlayerInside pid true
      (z2, [ZoneEvent.enter (z2.isPlayerInside pid)])
    else if !inZoneArea && isPlayerInInsideList then
      let z2 := z.setPlayerInside pid false
      (z2, [ZoneEvent.leave (z2.isPlayerInside pid)])
    else
      (z, [])

/-- Iterate `zoneSweepStep` for one (player, zone) pair over a sequence
of ticks; each tick supplies the visibility value and the player's
position for that tick.  Returns the final zone state and the per-tick
event lists (one list per tick, in order). -/
def sweepTicks (pid : ℕ) : List (Bool × Vec3) → GangZoneState →
    GangZoneState × List (List ZoneEvent)
  | [], z => (z, [])
  | (vis, p) :: rest, z =>
    let r := zoneSweepStep vis p pid z
    let r2 := sweepTicks pid rest r.1
    (r2.1, r.2 :: r2.2)

namespace GangZonesComponent

/-- Modelled from the spec: one slot of `MarkedPoolStorage` (the pool
template is not under src/).  Spec §3/§4.1: per slot an occupied flag
(here `entry.isSome`), a lock counter (≥ 0) and a pending-destroy
flag; while the counter is positive a released entity is kept and only
marked pending. -/
structure PoolSlot where
  entry : Option GangZoneState
  lockCount : ℕ
  pendingDestroy : Bool
deriving DecidableEq

/-- A slot after physical destruction: unoccupied, no locks, nothing
pending. -/
def destroyedSlot : PoolSlot := ⟨none, 0, false⟩

/-- Modelled from the spec: `MarkedPoolStorage::get` — "O(1) lookup;
null for an id outside range or not currently occupied" (a
pending-destroy entity is still occupied until physically destroyed:
"`get(id)` still returns the entity" after a deferred release). -/
def storageGet (st : List PoolSlot) (i : ℕ) : Option GangZoneState :=
  match st[i]? with
  | none => none
  | some sl => sl.entry

/-- Modelled from the spec: `MarkedPoolStorage::lock` — "increments the
slot's lock counter; no-op failure if id invalid". -/
def storageLock (st : List PoolSlot) (i : ℕ) : List PoolSlot :=
  match st[i]? with
  | none => st
  | some sl =>
    if sl.entry.isSome then st.set i { sl with lockCount := sl.lockCount + 1 }
    else st

/-- Modelled from the spec: `MarkedPoolStorage::unlock` — "decrements
the counter; if it reaches 0 and the slot was pending-destroy, performs
physical destruction now and returns true; otherwise returns false",
and (§7) "`unlock` on an id with counter already at 0 is a no-op
returning false". -/
def storageUnlock (st : List PoolSlot) (i : ℕ) : Bool × List PoolSlot :=
  match st[i]? with
  | none => (false, st)
  | some sl =>
    if sl.lockCount = 0 then (false, st)
    else
      let n := sl.lockCount - 1
      if n = 0 ∧ sl.pendingDestroy then (true, st.set i destroyedSlot)
      else (false, st.set i { sl with lockCount := n })

/-- Modelled from the spec: `MarkedPoolStorage::release` — "if lock
counter is 0, destroys immediately; otherwise marks pending-destroy and
defers"; on an unoccupied or out-of-range id nothing happens. -/
def storageRelease (st : List PoolSlot) (i : ℕ) : List PoolSlot :=
  match st[i]? with
  | none => st
  | some sl =>
    if sl.entry.isNone then st
    else if sl.lockCount = 0 then st.set i destroyedSlot
    else st.set i { sl with pendingDestroy := true }

/-- Replace the entity stored in slot `i` (used to embed in-place
mutation of the zone object held by the pool). -/
def setEntryAt (st : List PoolSlot) (i : ℕ) (z : GangZoneState) : List PoolSlot :=
  match st[i]? with
  | none => st
  | some sl => st.set i { sl with entry := some z }

/-- State of `GangZonesComponent`: the pool (`storage`) and the set of
zone ids opted into per-tick checking (`checkingList`, a
`UniqueIDArray`, not under src/, whose add/remove/valid are set
membership operations per spec §4.2). -/
structure State where
  storage : List PoolSlot
  checkingList : Finset ℕ
deriving DecidableEq

/-- Embeds `GangZonesComponent::get` (gangzone.cpp lines 240-243): delegates to
`storage.get`. -/
def get (s : State) (index : ℕ) : Option GangZoneState :=
  storageGet s.storage index

/-- Embeds `GangZonesComponent::release` (gangzone.cpp lines 245-255): if the
id has a live zone, remove it from the checking list when present
(`checkingList.valid` / `remove`), destream the zone, then hand the id
to the pool's release protocol; otherwise do nothing. -/
def release (s : State) (index : ℕ) : State :=
  match get s index with
  | none => s
  | some z =>
    let checking :=
      if index ∈ s.checkingList then s.checkingList.erase index else s.checkingList
    let st1 := setEntryAt s.storage index z.destream
    { storage := storageRelease st1 index, checkingList := checking }

/-- Embeds `GangZonesComponent::lock` (gangzone.cpp lines 257-260). -/
def lock (s : State) (index : ℕ) : State :=
  { s with storage := storageLock s.storage index }

/-- Embeds `GangZonesComponent::unlock` (gangzone.cpp lines 262-265): returns
the storage's result. -/
def unlock (s : State) (index : ℕ) : Bool × State :=
  let r := storageUnlock s.storage index
  (r.1, { s with storage := r.2 })

/-- Embeds `GangZonesComponent::onPoolEntryDestroyed` (gangzone.cpp lines
283-290): on player destruction, call `removeFor(pid, player)` on every
zone in the pool. -/
def onPoolEntryDestroyed (s : State) (pid : ℕ) : State :=
  { s with
    storage := s.storage.map (fun sl =>
      { sl with entry := sl.entry.map (GangZoneState.removeFor pid) }) }

end GangZonesComponent

namespace PawnTimerImpl

/-- Value of `UINT_MAX` for the 32-bit `uint32_t` timer index. -/
def UINT_MAX : ℕ := 4294967295

/-- State of `PawnTimerImpl`: the timer pool
(`FlatHashMap<uint32_t, ITimer*>`, embedded as a key-indexed partial
map; timers are opaque handles modelled as `ℕ`) and the running index
`idx`.  Keys are `uint32_t`, so meaningful keys are `≤ UINT_MAX`. -/
structure State where
  pool : ℕ → Option ℕ
  idx : ℕ

/-- The scan loop of `PawnTimerImpl::insert` (timers.hpp lines 31-45):
advance past occupied keys, wrapping from `UINT_MAX` to 0 at most once;
`none` renders the "No free timer slots" exit (the source returns 0
there).  The source compares `idx == UINT_MAX` on a `uint32_t`, whose
values never exceed `UINT_MAX`; the test is rendered `≥` — identical on
the `uint32_t` range — so the function is total on `ℕ`. -/
def insertScan (pool : ℕ → Option ℕ) (i : ℕ) (wrappedOnce : Bool) : Option ℕ :=
  if (pool i).isSome then
    if i ≥ UINT_MAX then
      if wrappedOnce then none
      else insertScan pool 0 true
    else insertScan pool (i + 1) wrappedOnce
  else some i
termination_by (if wrappedOnce then 0 else UINT_MAX + 2) + (UINT_MAX + 1 - i)
decreasing_by
  · have hw : wrappedOnce = false := by simp_all
    subst hw
    simp only [if_true, Bool.false_eq_true, if_false]
    omega
  · cases wrappedOnce <;> simp <;> omega

/-- Embeds `PawnTimerImpl::insert` (timers.hpp lines 30-55): find a free key
starting at `idx`, emplace the timer there, advance `idx` (wrapping
`UINT_MAX` to 0) and return the used key; return 0 without inserting
when no key is free.  The member `idx` is mutated in place by the scan:
on the found-a-free-key path it equals the found key when the loop
exits (hence the successor computed from `i` below), and on the "No
free timer slots" exit (timers.hpp lines 33-37) the `return 0` fires
from inside the `idx == UINT_MAX` branch, leaving `idx` at `UINT_MAX`. -/
def insert (s : State) (timer : ℕ) : ℕ × State :=
  match insertScan s.pool s.idx false with
  | none => (0, { s with idx := UINT_MAX })
  | some i =>
    let pool2 : ℕ → Option ℕ := fun j => if j = i then some timer else s.pool j
    let idx2 := if i ≥ UINT_MAX then 0 else i + 1
    (i, { pool := pool2, idx := idx2 })

/-- Concrete timer state with an empty pool (used as a witness input). -/
def emptyState : State := ⟨fun _ => none, 1⟩

/-- Concrete timer state whose pool holds a timer at every `uint32_t`
key (used as a witness input). -/
def fullState : State := ⟨fun j => if j ≤ UINT_MAX then some 0 else none, 1⟩

end PawnTimerImpl

namespace PlayerGangZoneData

theorem scanIdx_all_false {p : ExternaGangZoneID → Bool} {t : UsedIDs} (k : ℕ)
    (h : ∀ e ∈ t, p e = false) : scanIdx p t k = INVALID_GANG_ZONE_ID := by
  induction t generalizing k with
  | nil => rfl
  | cons a rest ih =>
    have ha : p a = false := h a (List.mem_cons_self a rest)
    simp only [scanIdx, ha, Bool.false_eq_true, if_false]
    exact ih (k + 1) (fun e he => h e (List.mem_cons_of_mem a he))

theorem scanIdx_least {p : ExternaGangZoneID → Bool} {t : UsedIDs} {i : ℕ}
    {e : ExternaGangZoneID} (k : ℕ) (he : t[i]? = some e) (hp : p e = true)
    (hleast : ∀ e' ∈ t.take i, p e' = false) :
    scanIdx p t k = (k : ℤ) + (i : ℤ) := by
  induction t generalizing i k with
  | nil => simp at he
  | cons a rest ih =>
    cases i with
    | zero =>
      simp only [List.getElem?_cons_zero, Option.some.injEq] at he
      subst he
      simp [scanIdx, hp]
    | succ n =>
      have ha : p a = false := hleast a (by simp [List.take_succ_cons])
      simp only [scanIdx, ha, Bool.false_eq_true, if_false]
      have he' : rest[n]? = some e := by simpa using he
      have hleast' : ∀ e' ∈ rest.take n, p e' = false := fun e' h' =>
        hleast e' (by simp [List.take_succ_cons, h'])
      rw [ih (k + 1) he' hleast']
      push_cast
      ring

theorem setGlobalAt_getElem_self {t : UsedIDs} {i : ℕ} {e : ExternaGangZoneID} (v : Int)
    (he : t[i]? = some e) : (setGlobalAt t i v)[i]? = some { e with Global := v } := by
  induction t generalizing i with
  | nil => simp at he
  | cons a rest ih =>
    cases i with
    | zero =>
      simp only [List.getElem?_cons_zero, Option.some.injEq] at he
      subst he
      simp [setGlobalAt]
    | succ n =>
      simpa [setGlobalAt] using ih (by simpa using he)

theorem setGlobalAt_getElem_ne {t : UsedIDs} {i j : ℕ} (v : Int) (hne : j ≠ i) :
    (setGlobalAt t i v)[j]? = t[j]? := by
  induction t generalizing i j with
  | nil => simp [setGlobalAt]
  | cons a rest ih =>
    cases i with
    | zero =>
      cases j with
      | zero => exact absurd rfl hne
      | succ m => simp [setGlobalAt]
    | succ n =>
      cases j with
      | zero => simp [setGlobalAt]
      | succ m =>
        simpa [setGlobalAt] using ih (fun h => hne (congrArg Nat.succ h))

theorem setGlobalAt_eq_self {t : UsedIDs} {i : ℕ} {e : ExternaGangZoneID} {v : Int}
    (he : t[i]? = some e) (hv : e.Global = v) : setGlobalAt t i v = t := by
  induction t generalizing i with
  | nil => rfl
  | cons a rest ih =>
    cases i with
    | zero =>
      simp only [List.getElem?_cons_zero, Option.some.injEq] at he
      subst he
      simp [setGlobalAt, ← hv]
    | succ n =>
      simp only [setGlobalAt, List.cons.injEq, true_and]
      exact ih (by simpa using he)

theorem setPrivateAt_getElem_self {t : UsedIDs} {i : ℕ} {e : ExternaGangZoneID} (v : Int)
    (he : t[i]? = some e) : (setPrivateAt t i v)[i]? = some { e with Private := v } := by
  induction t generalizing i with
  | nil => simp at he
  | cons a rest ih =>
    cases i with
    | zero =>
      simp only [List.getElem?_cons_zero, Option.some.injEq] at he
      subst he
      simp [setPrivateAt]
    | succ n =>
      simpa [setPrivateAt] using ih (by simpa using he)

theorem setPrivateAt_getElem_ne {t : UsedIDs} {i j : ℕ} (v : Int) (hne : j ≠ i) :
    (setPrivateAt t i v)[j]? = t[j]? := by
  induction t generalizing i j with
  | nil => simp [setPrivateAt]
  | cons a rest ih =>
    cases i with
    | zero =>
      cases j with
      | zero => exact absurd rfl hne
      | succ m => simp [setPrivateAt]
    | succ n =>
      cases j with
      | zero => simp [setPrivateAt]
      | succ m =>
        simpa [setPrivateAt] using ih (fun h => hne (congrArg Nat.succ h))

theorem setPrivateAt_eq_self {t : UsedIDs} {i : ℕ} {e : ExternaGangZoneID} {v : Int}
    (he : t[i]? = some e) (hv : e.Private = v) : setPrivateAt t i v = t := by
  induction t generalizing i with
  | nil => rfl
  | cons a rest ih =>
    cases i with
    | zero =>
      simp only [List.getElem?_cons_zero, Option.some.injEq] at he
      subst he
      simp [setPrivateAt, ← hv]
    | succ n =>
      simp only [setPrivateAt, List.cons.injEq, true_and]
      exact ih (by simpa using he)

end PlayerGangZoneData

/-- C1: for every actor position and zone rectangle, the tracker's
containment test `isPlayerInZoneArea` holds iff the x coordinate lies in
[min.x, max.x] and the y coordinate lies in [min.y, max.y], all four
bounds inclusive; and the z coordinate of the position has no influence
on the result. -/
theorem C1_containment_inclusive_and_z_ignored (p : Vec3) (zone : GangZonePos) :
    (isPlayerInZoneArea p zone = true ↔
      (zone.min.x ≤ p.x ∧ p.x ≤ zone.max.x ∧ zone.min.y ≤ p.y ∧ p.y ≤ zone.max.y))
    ∧ (∀ x y z1 z2 : ℚ,
        isPlayerInZoneArea ⟨x, y, z1⟩ zone = isPlayerInZoneArea ⟨x, y, z2⟩ zone) := by
  constructor
  · simp [isPlayerInZoneArea, and_assoc, ge_iff_le]
  · intro x y z1 z2
    rfl

/-- C3: when the zone's visibility predicate for the actor is false, the
sweep body dispatches no event for the pair and leaves the zone's
state — in particular the recorded membership flag — unchanged,
whatever the actor's position. -/
theorem C3_visibility_gates_transitions (p : Vec3) (pid : ℕ) (z : GangZoneState) :
    zoneSweepStep false p pid z = (z, []) := by
  simp [zoneSweepStep]

open PlayerGangZoneData

/-- C4: `reserveExternalID` (resp. `reserveInternalID`) returns the
lowest index whose slot has both fields unset, and sets only the Global
(resp. Private) field of that slot to the given value; when no slot has
both fields unset it returns `INVALID_GANG_ZONE_ID` and changes no
slot.  The spec's concrete scenario holds on an empty table:
`reserveExternal(5)` lands in slot 0, a following `reserveInternal(7)`
in slot 1, and after `releaseExternal(5)` a subsequent
`reserveExternal(9)` again returns slot 0. -/
theorem C4_reserve_lowest_free_slot (t : UsedIDs) (v : Int) :
    (∀ (i : ℕ) (e : ExternaGangZoneID),
      t[i]? = some e →
      e.Global = INVALID_GANG_ZONE_ID → e.Private = INVALID_GANG_ZONE_ID →
      (∀ e' ∈ t.take i,
        ¬(e'.Global = INVALID_GANG_ZONE_ID ∧ e'.Private = INVALID_GANG_ZONE_ID)) →
      ((reserveExternalID t v).1 = (i : ℤ)
        ∧ (reserveExternalID t v).2[i]? = some { e with Global := v }
        ∧ (∀ j : ℕ, j ≠ i → (reserveExternalID t v).2[j]? = t[j]?)
        ∧ (reserveInternalID t v).1 = (i : ℤ)
        ∧ (reserveInternalID t v).2[i]? = some { e with Private := v }
        ∧ (∀ j : ℕ, j ≠ i → (reserveInternalID t v).2[j]? = t[j]?)))
    ∧ ((∀ e ∈ t, ¬(e.Global = INVALID_GANG_ZONE_ID ∧ e.Private = INVALID_GANG_ZONE_ID)) →
        reserveExternalID t v = (INVALID_GANG_ZONE_ID, t)
        ∧ reserveInternalID t v = (INVALID_GANG_ZONE_ID, t))
    ∧ ((reserveExternalID (emptyTable 4) 5).1 = 0
        ∧ (reserveInternalID (reserveExternalID (emptyTable 4) 5).2 7).1 = 1
        ∧ (reserveExternalID
            (releaseExternalID
              (reserveInternalID (reserveExternalID (emptyTable 4) 5).2 7).2 5).2 9).1 = 0) := by
  refine ⟨?_, ?_, by decide⟩
  · intro i e he hG hP hleast
    have hfree : slotFree e = true := by simp [slotFree, hG, hP]
    have hleast' : ∀ e' ∈ t.take i, slotFree e' = false := by
      intro e' h'
      have := hleast e' h'
      simp only [slotFree, Bool.and_eq_false_iff, decide_eq_false_iff_not]
      tauto
    have hfind : findUnusedID t = (i : ℤ) := by
      simpa using scanIdx_least 0 he hfree hleast'
    have hne : ¬((i : ℤ) = INVALID_GANG_ZONE_ID) := by
      simp only [INVALID_GANG_ZONE_ID]
      omega
    refine ⟨?_, ?_, ?_, ?_, ?_, ?_⟩ <;>
      simp only [reserveExternalID, reserveInternalID, hfind, hne, if_false, Int.toNat_natCast]
    · exact setGlobalAt_getElem_self v he
    · intro j hj
      exact setGlobalAt_getElem_ne v hj
    · exact setPrivateAt_getElem_self v he
    · intro j hj
      exact setPrivateAt_getElem_ne v hj
  · intro hall
    have hall' : ∀ e ∈ t, slotFree e = false := by
      intro e heq
      have := hall e heq
      simp only [slotFree, Bool.and_eq_false_iff, decide_eq_false_iff_not]
      tauto
    have hfind : findUnusedID t = INVALID_GANG_ZONE_ID := scanIdx_all_false 0 hall'
    constructor <;> simp [reserveExternalID, reserveInternalID, hfind]

/-- Witness for C4: a concrete fully-free two-slot table (lowest free
slot 0, Global set to 5, Private untouched) and a concrete table with
no free slot (reservation fails, table unchanged). -/
theorem C4_reserve_lowest_free_slot_witness :
    (reserveExternalID [⟨-1, -1⟩, ⟨-1, -1⟩] 5).1 = (0 : ℤ)
    ∧ (reserveExternalID [⟨-1, -1⟩, ⟨-1, -1⟩] 5).2[0]? = some ⟨-1, 5⟩
    ∧ reserveExternalID [⟨2, 3⟩] 5 = (INVALID_GANG_ZONE_ID, [⟨2, 3⟩]) := by
  obtain ⟨ha, -, -⟩ := C4_reserve_lowest_free_slot [⟨-1, -1⟩, ⟨-1, -1⟩] 5
  obtain ⟨-, hb, -⟩ := C4_reserve_lowest_free_slot [⟨2, 3⟩] 5
  have hx := ha 0 ⟨-1, -1⟩ rfl rfl rfl (by simp)
  exact ⟨hx.1, hx.2.1, (hb (by decide)).1⟩

/-- C5: `releaseExternalID` (resp. `releaseInternalID`) clears only the
Global (resp. Private) field of the lowest slot holding the value on
that side, leaving that slot's other field and every other slot
unchanged; when no slot holds the value on that side it returns
`INVALID_GANG_ZONE_ID` and the whole table is unchanged. -/
theorem C5_release_clears_only_one_side (t : UsedIDs) (v : Int) :
    (∀ (i : ℕ) (e : ExternaGangZoneID),
      t[i]? = some e → e.Global = v → (∀ e' ∈ t.take i, e'.Global ≠ v) →
      ((releaseExternalID t v).2[i]? = some { e with Global := INVALID_GANG_ZONE_ID }
        ∧ (∀ j : ℕ, j ≠ i → (releaseExternalID t v).2[j]? = t[j]?)))
    ∧ ((∀ e ∈ t, e.Global ≠ v) → releaseExternalID t v = (INVALID_GANG_ZONE_ID, t))
    ∧ (∀ (i : ℕ) (e : ExternaGangZoneID),
      t[i]? = some e → e.Private = v → (∀ e' ∈ t.take i, e'.Private ≠ v) →
      ((releaseInternalID t v).2[i]? = some { e with Private := INVALID_GANG_ZONE_ID }
        ∧ (∀ j : ℕ, j ≠ i → (releaseInternalID t v).2[j]? = t[j]?)))
    ∧ ((∀ e ∈ t, e.Private ≠ v) → releaseInternalID t v = (INVALID_GANG_ZONE_ID, t)) := by
  have hne0 : ∀ i : ℕ, ¬((i : ℤ) = INVALID_GANG_ZONE_ID) := by
    intro i
    simp only [INVALID_GANG_ZONE_ID]
    omega
  refine ⟨?_, ?_, ?_, ?_⟩
  · intro i e he hv hleast
    have hfind : getExternalID t v = (i : ℤ) := by
      simpa using scanIdx_least (p := fun e => decide (e.Global = v)) 0 he (by simp [hv])
        (fun e' h' => by simp [hleast e' h'])
    refine ⟨?_, ?_⟩ <;>
      simp only [releaseExternalID, hfind, hne0 i, if_false, Int.toNat_natCast]
    · exact setGlobalAt_getElem_self INVALID_GANG_ZONE_ID he
    · intro j hj
      exact setGlobalAt_getElem_ne INVALID_GANG_ZONE_ID hj
  · intro hall
    have hfind : getExternalID t v = INVALID_GANG_ZONE_ID :=
      scanIdx_all_false 0 (fun e heq => by simp [hall e heq])
    simp [releaseExternalID, hfind]
  · intro i e he hv hleast
    have hfind : getInternalID t v = (i : ℤ) := by
      simpa using scanIdx_least (p := fun e => decide (e.Private = v)) 0 he (by simp [hv])
        (fun e' h' => by simp [hleast e' h'])
    refine ⟨?_, ?_⟩ <;>
      simp only [releaseInternalID, hfind, hne0 i, if_false, Int.toNat_natCast]
    · exact setPrivateAt_getElem_self INVALID_GANG_ZONE_ID he
    · intro j hj
      exact setPrivateAt_getElem_ne INVALID_GANG_ZONE_ID hj
  · intro hall
    have hfind : getInternalID t v = INVALID_GANG_ZONE_ID :=
      scanIdx_all_false 0 (fun e heq => by simp [hall e heq])
    simp [releaseInternalID, hfind]

/-- Witness for C5: releasing 5 from a one-slot table holding Global 5
and Private 7 clears only the Global field; releasing a value held
nowhere is a no-op returning the sentinel. -/
theorem C5_release_clears_only_one_side_witness :
    (releaseExternalID [⟨7, 5⟩] 5).2[0]? = some ⟨7, -1⟩
    ∧ releaseExternalID [⟨7, 5⟩] 9 = (INVALID_GANG_ZONE_ID, [⟨7, 5⟩]) := by
  obtain ⟨ha, -, -, -⟩ := C5_release_clears_only_one_side [⟨7, 5⟩] 5
  obtain ⟨-, hb, -, -⟩ := C5_release_clears_only_one_side [⟨7, 5⟩] 9
  exact ⟨(ha 0 ⟨7, 5⟩ rfl rfl (by simp)).1, hb (by decide)⟩

/-- C9: the sentinel is not distinguished from stored values in
lookups.  If `i` is the lowest index whose Global field is unset, then
`getExternalID INVALID_GANG_ZONE_ID` returns `i` (not the not-found
sentinel: `(i : ℤ) ≥ 0 > -1`) and
`releaseExternalID INVALID_GANG_ZONE_ID` also returns `i` while leaving
the table unchanged; symmetrically for the Private side via
`getInternalID`/`releaseInternalID`. -/
theorem C9_sentinel_aliasing (t : UsedIDs) :
    (∀ (i : ℕ) (e : ExternaGangZoneID),
      t[i]? = some e → e.Global = INVALID_GANG_ZONE_ID →
      (∀ e' ∈ t.take i, e'.Global ≠ INVALID_GANG_ZONE_ID) →
      (getExternalID t INVALID_GANG_ZONE_ID = (i : ℤ)
        ∧ releaseExternalID t INVALID_GANG_ZONE_ID = ((i : ℤ), t)))
    ∧ (∀ (i : ℕ) (e : ExternaGangZoneID),
      t[i]? = some e → e.Private = INVALID_GANG_ZONE_ID →
      (∀ e' ∈ t.take i, e'.Private ≠ INVALID_GANG_ZONE_ID) →
      (getInternalID t INVALID_GANG_ZONE_ID = (i : ℤ)
        ∧ releaseInternalID t INVALID_GANG_ZONE_ID = ((i : ℤ), t))) := by
  have hne0 : ∀ i : ℕ, ¬((i : ℤ) = INVALID_GANG_ZONE_ID) := by
    intro i
    simp only [INVALID_GANG_ZONE_ID]
    omega
  constructor
  · intro i e he hv hleast
    have hfind : getExternalID t INVALID_GANG_ZONE_ID = (i : ℤ) := by
      simpa using scanIdx_least (p := fun e => decide (e.Global = INVALID_GANG_ZONE_ID)) 0 he
        (by simp [hv]) (fun e' h' => by simp [hleast e' h'])
    refine ⟨hfind, ?_⟩
    simp only [releaseExternalID, hfind, hne0 i, if_false, Int.toNat_natCast]
    rw [setGlobalAt_eq_self he hv]
  · intro i e he hv hleast
    have hfind : getInternalID t INVALID_GANG_ZONE_ID = (i : ℤ) := by
      simpa using scanIdx_least (p := fun e => decide (e.Private = INVALID_GANG_ZONE_ID)) 0 he
        (by simp [hv]) (fun e' h' => by simp [hleast e' h'])
    refine ⟨hfind, ?_⟩
    simp only [releaseInternalID, hfind, hne0 i, if_false, Int.toNat_natCast]
    rw [setPrivateAt_eq_self he hv]

/-- Witness for C9: on a table whose slot 0 is fully occupied and whose
slot 1 has an unset Global field, looking up the sentinel on the
External side yields index 1, and releasing the sentinel yields index 1
with the table unchanged; on a one-slot table with unset Private field
the Internal side yields index 0. -/
theorem C9_sentinel_aliasing_witness :
    (getExternalID [⟨7, 5⟩, ⟨2, -1⟩] INVALID_GANG_ZONE_ID = 1
      ∧ releaseExternalID [⟨7, 5⟩, ⟨2, -1⟩] INVALID_GANG_ZONE_ID = (1, [⟨7, 5⟩, ⟨2, -1⟩]))
    ∧ (getInternalID [⟨-1, 4⟩] INVALID_GANG_ZONE_ID = 0
      ∧ releaseInternalID [⟨-1, 4⟩] INVALID_GANG_ZONE_ID = (0, [⟨-1, 4⟩])) := by
  obtain ⟨ha, -⟩ := C9_sentinel_aliasing [⟨7, 5⟩, ⟨2, -1⟩]
  obtain ⟨-, hb⟩ := C9_sentinel_aliasing [⟨-1, 4⟩]
  exact ⟨ha 1 ⟨2, -1⟩ rfl rfl (by decide), hb 0 ⟨-1, 4⟩ rfl rfl (by simp)⟩

/-- C2: membership events are edge-triggered.  For a visible zone and an
actor starting outside the recorded inside-list, a six-tick sweep that
is geometrically inside on ticks 1-5 and outside on tick 6 dispatches
exactly one enter event, on tick 1, with the membership flag already set
at dispatch time (`enter true`); nothing on ticks 2-5; and exactly one
leave event on tick 6 (flag already cleared at dispatch: `leave
false`).  Moreover any visible tick whose containment result equals the
recorded membership flag dispatches nothing and leaves the zone state
unchanged. -/
theorem C2_edge_triggered_membership (z : GangZoneState) (pid : ℕ) (pIn pOut : Vec3)
    (hIn : isPlayerInZoneArea pIn z.pos = true)
    (hOut : isPlayerInZoneArea pOut z.pos = false)
    (hstart : pid ∉ z.playersInside) :
    (sweepTicks pid
        [(true, pIn), (true, pIn), (true, pIn), (true, pIn), (true, pIn), (true, pOut)] z).2
      = [[ZoneEvent.enter true], [], [], [], [], [ZoneEvent.leave false]]
    ∧ (∀ (w : GangZoneState) (p : Vec3),
        w.isPlayerInside pid = isPlayerInZoneArea p w.pos →
        zoneSweepStep true p pid w = (w, [])) := by
  constructor
  · simp [sweepTicks, zoneSweepStep, GangZoneState.isPlayerInside,
      GangZoneState.setPlayerInside, hIn, hOut, hstart]
  · intro w p h
    simp only [zoneSweepStep, Bool.not_true, Bool.false_eq_true, if_false, ← h]
    cases hw : w.isPlayerInside pid <;> simp [hw]

/-- Witness for C2: a concrete 0-10 square, an actor at (5,5) for five
ticks then at (20,20), starting with an empty inside-list; and a
no-change tick on a zone already recording the actor inside. -/
theorem C2_edge_triggered_membership_witness :
    (sweepTicks 1
        [(true, ⟨5, 5, 0⟩), (true, ⟨5, 5, 0⟩), (true, ⟨5, 5, 0⟩), (true, ⟨5, 5, 0⟩),
          (true, ⟨5, 5, 0⟩), (true, ⟨20, 20, 0⟩)]
        ⟨⟨⟨0, 0⟩, ⟨10, 10⟩⟩, ∅⟩).2
      = [[ZoneEvent.enter true], [], [], [], [], [ZoneEvent.leave false]]
    ∧ zoneSweepStep true ⟨5, 5, 0⟩ 1 ⟨⟨⟨0, 0⟩, ⟨10, 10⟩⟩, {1}⟩
      = (⟨⟨⟨0, 0⟩, ⟨10, 10⟩⟩, {1}⟩, []) := by
  have h := C2_edge_triggered_membership ⟨⟨⟨0, 0⟩, ⟨10, 10⟩⟩, ∅⟩ 1 ⟨5, 5, 0⟩ ⟨20, 20, 0⟩
    (by decide) (by decide) (by decide)
  exact ⟨h.1, h.2 ⟨⟨⟨0, 0⟩, ⟨10, 10⟩⟩, {1}⟩ ⟨5, 5, 0⟩ (by decide)⟩

namespace GangZonesComponent

theorem storageGet_of_getElem {st : List PoolSlot} {i : ℕ} {sl : PoolSlot}
    (hsl : st[i]? = some sl) : storageGet st i = sl.entry := by
  simp [storageGet, hsl]

theorem storageGet_of_getElem_none {st : List PoolSlot} {i : ℕ}
    (hsl : st[i]? = none) : storageGet st i = none := by
  simp [storageGet, hsl]

theorem setEntryAt_of_getElem {st : List PoolSlot} {i : ℕ} {sl : PoolSlot}
    (hsl : st[i]? = some sl) (z : GangZoneState) :
    setEntryAt st i z = st.set i { sl with entry := some z } := by
  simp [setEntryAt, hsl]

theorem storageRelease_deferred {st : List PoolSlot} {i : ℕ} {sl : PoolSlot}
    (hsl : st[i]? = some sl) (hocc : sl.entry.isSome) (hlock : sl.lockCount ≠ 0) :
    storageRelease st i = st.set i { sl with pendingDestroy := true } := by
  simp [storageRelease, hsl, Option.isNone_iff_eq_none, hlock]
  intro hnone
  rw [hnone] at hocc
  simp at hocc

theorem storageRelease_immediate {st : List PoolSlot} {i : ℕ} {sl : PoolSlot}
    (hsl : st[i]? = some sl) (hocc : sl.entry.isSome) (hlock : sl.lockCount = 0) :
    storageRelease st i = st.set i destroyedSlot := by
  simp [storageRelease, hsl, Option.isNone_iff_eq_none, hlock]
  intro hnone
  rw [hnone] at hocc
  simp at hocc

end GangZonesComponent

/-- C6: for an id with a live zone, the component-level `release`
removes the id from the checking list (leaving all other ids' checking
status unchanged), clears the zone's active memberships (destreams it),
and hands the id to the pool's protocol: with no outstanding lock the
slot is destroyed at once (`get` turns null), with a positive lock
counter the slot survives, destreamed and marked pending-destroy.  For
an id with no live zone (out of range or unoccupied), `release` changes
nothing. -/
theorem C6_component_release (s : GangZonesComponent.State) (index : ℕ) :
    (∀ z : GangZoneState, GangZonesComponent.get s index = some z →
      (index ∉ (GangZonesComponent.release s index).checkingList
        ∧ (∀ j : ℕ, j ≠ index →
            (j ∈ (GangZonesComponent.release s index).checkingList ↔ j ∈ s.checkingList))
        ∧ (∀ sl : GangZonesComponent.PoolSlot, s.storage[index]? = some sl →
            (sl.lockCount = 0 →
              GangZonesComponent.get (GangZonesComponent.release s index) index = none)
            ∧ (sl.lockCount ≠ 0 →
                (GangZonesComponent.release s index).storage[index]? =
                  some ⟨some ⟨z.pos, ∅⟩, sl.lockCount, true⟩))))
    ∧ (GangZonesComponent.get s index = none →
        GangZonesComponent.release s index = s) := by
  constructor
  · intro z hz
    refine ⟨?_, ?_, ?_⟩
    · simp only [GangZonesComponent.release, hz]
      by_cases hmem : index ∈ s.checkingList <;> simp [hmem]
    · intro j hj
      simp only [GangZonesComponent.release, hz]
      by_cases hmem : index ∈ s.checkingList <;> simp [hmem, hj]
    · intro sl hsl
      have hlt : index < s.storage.length := (List.getElem?_eq_some_iff.mp hsl).1
      have hentry : sl.entry = some z := by
        have := GangZonesComponent.storageGet_of_getElem hsl
        rw [GangZonesComponent.get, this] at hz
        exact hz
      have hst1 : GangZonesComponent.setEntryAt s.storage index z.destream
          = s.storage.set index { sl with entry := some z.destream } :=
        GangZonesComponent.setEntryAt_of_getElem hsl z.destream
      have hst1get : (s.storage.set index { sl with entry := some z.destream })[index]?
          = some { sl with entry := some z.destream } :=
        List.getElem?_set_self (by simpa using hlt)
      have hz2 : GangZonesComponent.storageGet s.storage index = some z := by
        simpa [GangZonesComponent.get] using hz
      constructor
      · intro hlock
        simp only [GangZonesComponent.release, GangZonesComponent.get, hz2]
        rw [hst1, GangZonesComponent.storageRelease_immediate hst1get (by simp) (by simp [hlock])]
        rw [GangZonesComponent.storageGet_of_getElem
          (List.getElem?_set_self (by simpa using hlt))]
        rfl
      · intro hlock
        simp only [GangZonesComponent.release, GangZonesComponent.get, hz2]
        rw [hst1, GangZonesComponent.storageRelease_deferred hst1get (by simp) (by simp [hlock])]
        rw [List.getElem?_set_self (by simpa using hlt)]
        simp [GangZoneState.destream]
  · intro hz
    simp [GangZonesComponent.release, hz]

/-- Witness for C6: a one-slot component whose zone 0 is being checked;
releasing id 0 (no locks) drops it from the checking list and destroys
it; releasing id 5 of an empty component changes nothing. -/
theorem C6_component_release_witness :
    (0 : ℕ) ∉ (GangZonesComponent.release
        ⟨[⟨some ⟨⟨⟨0, 0⟩, ⟨1, 1⟩⟩, ∅⟩, 0, false⟩], {0}⟩ 0).checkingList
    ∧ GangZonesComponent.get
        (GangZonesComponent.release ⟨[⟨some ⟨⟨⟨0, 0⟩, ⟨1, 1⟩⟩, ∅⟩, 0, false⟩], {0}⟩ 0) 0 = none
    ∧ GangZonesComponent.release ⟨[], ∅⟩ 5 = ⟨[], ∅⟩ := by
  obtain ⟨ha, -⟩ :=
    C6_component_release ⟨[⟨some ⟨⟨⟨0, 0⟩, ⟨1, 1⟩⟩, ∅⟩, 0, false⟩], {0}⟩ 0
  obtain ⟨-, hb⟩ := C6_component_release ⟨[], ∅⟩ 5
  have h1 := ha ⟨⟨⟨0, 0⟩, ⟨1, 1⟩⟩, ∅⟩ rfl
  exact ⟨h1.1, (h1.2.2 ⟨some ⟨⟨⟨0, 0⟩, ⟨1, 1⟩⟩, ∅⟩, 0, false⟩ rfl).1 rfl, hb rfl⟩

namespace GangZonesComponent

theorem unlock_eq (s : State) (i : ℕ) :
    unlock s i = ((storageUnlock s.storage i).1, ⟨(storageUnlock s.storage i).2, s.checkingList⟩) :=
  rfl

theorem storageUnlock_zero {st : List PoolSlot} {i : ℕ} {sl : PoolSlot}
    (hsl : st[i]? = some sl) (h0 : sl.lockCount = 0) : storageUnlock st i = (false, st) := by
  simp [storageUnlock, hsl, h0]

theorem storageUnlock_last {st : List PoolSlot} {i : ℕ} {sl : PoolSlot}
    (hsl : st[i]? = some sl) (h1 : sl.lockCount = 1) (hp : sl.pendingDestroy = true) :
    storageUnlock st i = (true, st.set i destroyedSlot) := by
  simp [storageUnlock, hsl, h1, hp]

end GangZonesComponent

/-- C7: deferred release.  For a live id with lock counter 0:
releasing it directly destroys at once (`get` null); after
`lock` then `release`, `get` still returns an entity; the following
`unlock` brings the counter back to 0, performs the pending physical
destruction and returns true; afterwards `get` returns null and a
second `unlock` returns false. -/
theorem C7_deferred_release_protocol (s : GangZonesComponent.State) (index : ℕ)
    (sl : GangZonesComponent.PoolSlot) (z : GangZoneState)
    (hsl : s.storage[index]? = some sl) (hentry : sl.entry = some z)
    (hlock : sl.lockCount = 0) :
    GangZonesComponent.get (GangZonesComponent.release s index) index = none
    ∧ ((GangZonesComponent.get
          (GangZonesComponent.release (GangZonesComponent.lock s index) index) index).isSome
            = true
        ∧ (GangZonesComponent.unlock
            (GangZonesComponent.release (GangZonesComponent.lock s index) index) index).1 = true
        ∧ GangZonesComponent.get
            (GangZonesComponent.unlock
              (GangZonesComponent.release (GangZonesComponent.lock s index) index) index).2
            index = none
        ∧ (GangZonesComponent.unlock
            (GangZonesComponent.unlock
              (GangZonesComponent.release (GangZonesComponent.lock s index) index) index).2
            index).1 = false) := by
  have hlt : index < s.storage.length := (List.getElem?_eq_some_iff.mp hsl).1
  have hz2 : GangZonesComponent.storageGet s.storage index = some z := by
    rw [GangZonesComponent.storageGet_of_getElem hsl]
    exact hentry
  constructor
  · simp only [GangZonesComponent.release, GangZonesComponent.get, hz2]
    rw [GangZonesComponent.setEntryAt_of_getElem hsl,
      GangZonesComponent.storageRelease_immediate (List.getElem?_set_self (by simpa using hlt))
        (by simp) (by simp [hlock]),
      GangZonesComponent.storageGet_of_getElem (List.getElem?_set_self (by simpa using hlt))]
    rfl
  · have hs1 : GangZonesComponent.lock s index
        = ⟨s.storage.set index { sl with lockCount := sl.lockCount + 1 }, s.checkingList⟩ := by
      simp [GangZonesComponent.lock, GangZonesComponent.storageLock, hsl, hentry]
    have hlen1 : index < (GangZonesComponent.lock s index).storage.length := by
      rw [hs1]
      simpa using hlt
    have hs1get : (GangZonesComponent.lock s index).storage[index]?
        = some { sl with lockCount := sl.lockCount + 1 } := by
      rw [hs1]
      exact List.getElem?_set_self (by simpa using hlt)
    have hz3 : GangZonesComponent.storageGet (GangZonesComponent.lock s index).storage index
        = some z := by
      rw [GangZonesComponent.storageGet_of_getElem hs1get]
      exact hentry
    have hs2st : (GangZonesComponent.release (GangZonesComponent.lock s index) index).storage
        = ((GangZonesComponent.lock s index).storage.set index
            ⟨some z.destream, sl.lockCount + 1, sl.pendingDestroy⟩).set index
            ⟨some z.destream, sl.lockCount + 1, true⟩ := by
      simp only [GangZonesComponent.release, GangZonesComponent.get, hz3]
      rw [GangZonesComponent.setEntryAt_of_getElem hs1get,
        GangZonesComponent.storageRelease_deferred
          (List.getElem?_set_self (by simpa using hlen1)) (by simp) (by simp)]
    have hs2get :
        (GangZonesComponent.release (GangZonesComponent.lock s index) index).storage[index]?
          = some ⟨some z.destream, sl.lockCount + 1, true⟩ := by
      rw [hs2st]
      exact List.getElem?_set_self (by simpa using hlen1)
    have hlen2 : index
        < (GangZonesComponent.release (GangZonesComponent.lock s index) index).storage.length := by
      rw [hs2st]
      simpa using hlen1
    have hu : GangZonesComponent.storageUnlock
          (GangZonesComponent.release (GangZonesComponent.lock s index) index).storage index
        = (true, ((GangZonesComponent.release (GangZonesComponent.lock s index) index).storage).set index GangZonesComponent.destroyedSlot) :=
      GangZonesComponent.storageUnlock_last hs2get (by simp [hlock]) rfl
    have hu2get :
        ((GangZonesComponent.unlock (GangZonesComponent.release (GangZonesComponent.lock s index) index) index).2).storage[index]?
          = some GangZonesComponent.destroyedSlot := by
      rw [GangZonesComponent.unlock_eq, hu]
      exact List.getElem?_set_self (by simpa using hlen2)
    refine ⟨?_, ?_, ?_, ?_⟩
    · rw [GangZonesComponent.get, GangZonesComponent.storageGet_of_getElem hs2get]
      rfl
    · rw [GangZonesComponent.unlock_eq, hu]
    · rw [GangZonesComponent.get, GangZonesComponent.storageGet_of_getElem hu2get]
      rfl
    · rw [GangZonesComponent.unlock_eq, GangZonesComponent.storageUnlock_zero hu2get rfl]

/-- Witness for C7: a one-slot component with an unlocked live zone at
id 0, run through the release / lock-release-unlock-unlock protocol. -/
theorem C7_deferred_release_protocol_witness :
    GangZonesComponent.get
        (GangZonesComponent.release ⟨[⟨some ⟨⟨⟨0, 0⟩, ⟨1, 1⟩⟩, ∅⟩, 0, false⟩], ∅⟩ 0) 0 = none
    ∧ ((GangZonesComponent.get
          (GangZonesComponent.release
            (GangZonesComponent.lock ⟨[⟨some ⟨⟨⟨0, 0⟩, ⟨1, 1⟩⟩, ∅⟩, 0, false⟩], ∅⟩ 0) 0) 0).isSome
            = true
        ∧ (GangZonesComponent.unlock
            (GangZonesComponent.release
              (GangZonesComponent.lock ⟨[⟨some ⟨⟨⟨0, 0⟩, ⟨1, 1⟩⟩, ∅⟩, 0, false⟩], ∅⟩ 0) 0) 0).1
            = true
        ∧ GangZonesComponent.get
            (GangZonesComponent.unlock
              (GangZonesComponent.release
                (GangZonesComponent.lock ⟨[⟨some ⟨⟨⟨0, 0⟩, ⟨1, 1⟩⟩, ∅⟩, 0, false⟩], ∅⟩ 0) 0) 0).2
            0 = none
        ∧ (GangZonesComponent.unlock
            (GangZonesComponent.unlock
              (GangZonesComponent.release
                (GangZonesComponent.lock ⟨[⟨some ⟨⟨⟨0, 0⟩, ⟨1, 1⟩⟩, ∅⟩, 0, false⟩], ∅⟩ 0) 0) 0).2
            0).1 = false) :=
  C7_deferred_release_protocol ⟨[⟨some ⟨⟨⟨0, 0⟩, ⟨1, 1⟩⟩, ∅⟩, 0, false⟩], ∅⟩ 0
    ⟨some ⟨⟨⟨0, 0⟩, ⟨1, 1⟩⟩, ∅⟩, 0, false⟩ ⟨⟨⟨0, 0⟩, ⟨1, 1⟩⟩, ∅⟩ rfl rfl rfl

/-- C8: detach cleanup.  After `onPoolEntryDestroyed` for a player, no
zone in the pool records that player inside (so a later sweep can never
dispatch a leave event for that player — a leave requires the recorded
flag); and the player's identifier table after `reset` has both fields
of every slot unset. -/
theorem C8_detach_cleanup (s : GangZonesComponent.State) (pid : ℕ) (t : UsedIDs) :
    (∀ sl ∈ (GangZonesComponent.onPoolEntryDestroyed s pid).storage,
      ∀ z : GangZoneState, sl.entry = some z → pid ∉ z.playersInside)
    ∧ (∀ z : GangZoneState, pid ∉ z.playersInside →
        ∀ (vis : Bool) (p : Vec3) (b : Bool),
          ZoneEvent.leave b ∉ (zoneSweepStep vis p pid z).2)
    ∧ (∀ e ∈ reset t,
        e.Private = INVALID_GANG_ZONE_ID ∧ e.Global = INVALID_GANG_ZONE_ID) := by
  refine ⟨?_, ?_, ?_⟩
  · intro sl hsl z hz
    simp only [GangZonesComponent.onPoolEntryDestroyed, List.mem_map] at hsl
    obtain ⟨sl0, -, rfl⟩ := hsl
    simp only at hz
    obtain ⟨z0, -, rfl⟩ := Option.map_eq_some'.mp hz
    simp [GangZoneState.removeFor]
  · intro z hz vis p b
    cases vis with
    | false => simp [zoneSweepStep]
    | true =>
      have hflag : z.isPlayerInside pid = false := by
        simp [GangZoneState.isPlayerInside, hz]
      simp only [zoneSweepStep, hflag, Bool.not_true, Bool.not_false, Bool.and_true,
        Bool.and_false, Bool.false_eq_true, if_false]
      cases harea : isPlayerInZoneArea p z.pos <;> simp
  · intro e he
    simp only [reset, List.mem_map] at he
    obtain ⟨e0, -, rfl⟩ := he
    exact ⟨rfl, rfl⟩

/-- Witness for C8: purging player 3 from a zone recording {3, 4}
removes it; a sweep of a zone not recording player 3 emits no leave
event; a reset slot has its Private field unset. -/
theorem C8_detach_cleanup_witness :
    (3 : ℕ) ∉ (GangZoneState.removeFor 3 ⟨⟨⟨0, 0⟩, ⟨1, 1⟩⟩, {3, 4}⟩).playersInside
    ∧ ZoneEvent.leave true ∉ (zoneSweepStep true ⟨0, 0, 0⟩ 3 ⟨⟨⟨0, 0⟩, ⟨1, 1⟩⟩, ∅⟩).2
    ∧ (⟨-1, -1⟩ : ExternaGangZoneID).Private = INVALID_GANG_ZONE_ID := by
  obtain ⟨h1, h2, h3⟩ :=
    C8_detach_cleanup ⟨[⟨some ⟨⟨⟨0, 0⟩, ⟨1, 1⟩⟩, {3, 4}⟩, 0, false⟩], ∅⟩ 3 [⟨5, 6⟩]
  exact ⟨h1 ⟨some (GangZoneState.removeFor 3 ⟨⟨⟨0, 0⟩, ⟨1, 1⟩⟩, {3, 4}⟩), 0, false⟩
      (List.mem_cons_self _ _) _ rfl,
    h2 ⟨⟨⟨0, 0⟩, ⟨1, 1⟩⟩, ∅⟩ (by decide) true ⟨0, 0, 0⟩ true,
    (h3 ⟨-1, -1⟩ (by decide)).1⟩

namespace PawnTimerImpl

theorem insertScan_free {pool : ℕ → Option ℕ} {i : ℕ} {w : Bool} {r : ℕ}
    (h : insertScan pool i w = some r) : pool r = none := by
  induction i, w using insertScan.induct pool with
  | case1 i hocc hge =>
    rw [insertScan] at h
    simp [hocc, hge] at h
  | case2 i w hocc hge hw ih =>
    rw [insertScan] at h
    simp only [hocc, hge, hw, if_true, if_false, ge_iff_le, if_pos] at h
    exact ih h
  | case3 i w hocc hge ih =>
    rw [insertScan] at h
    simp only [hocc, if_true, if_neg hge] at h
    exact ih h
  | case4 i w hocc =>
    rw [insertScan] at h
    simp only [hocc, Bool.false_eq_true, if_false, Option.some.injEq] at h
    subst h
    simpa using hocc

theorem insertScan_none_covers {pool : ℕ → Option ℕ} {i : ℕ} {w : Bool}
    (h : insertScan pool i w = none) :
    (∀ j, i ≤ j → j ≤ UINT_MAX → (pool j).isSome)
    ∧ (w = false → ∀ j, j ≤ UINT_MAX → (pool j).isSome) := by
  induction i, w using insertScan.induct pool with
  | case1 i hocc hge =>
    refine ⟨?_, by simp⟩
    intro j hij hj
    have hji : j = i := by omega
    subst hji
    exact hocc
  | case2 i w hocc hge hw ih =>
    rw [insertScan] at h
    simp only [hocc, hge, hw, if_true, if_false, ge_iff_le, if_pos] at h
    have hcover := (ih h).1
    exact ⟨fun j _ hj => hcover j (Nat.zero_le j) hj,
      fun _ j hj => hcover j (Nat.zero_le j) hj⟩
  | case3 i w hocc hge ih =>
    rw [insertScan] at h
    simp only [hocc, if_true, if_neg hge] at h
    obtain ⟨ha, hb⟩ := ih h
    constructor
    · intro j hij hj
      rcases Nat.eq_or_lt_of_le hij with heq | hlt
      · subst heq
        exact hocc
      · exact ha j hlt hj
    · intro hw j hj
      exact hb hw j hj
  | case4 i w hocc =>
    rw [insertScan] at h
    simp [hocc] at h

theorem insertScan_some_of_exists {pool : ℕ → Option ℕ} (i : ℕ)
    (hfree : ∃ j, j ≤ UINT_MAX ∧ pool j = none) :
    ∃ r, insertScan pool i false = some r := by
  cases hscan : insertScan pool i false with
  | some r => exact ⟨r, rfl⟩
  | none =>
    obtain ⟨j, hj, hnone⟩ := hfree
    have := (insertScan_none_covers hscan).2 rfl j hj
    rw [hnone] at this
    simp at this

theorem insertScan_full {pool : ℕ → Option ℕ}
    (hall : ∀ j, j ≤ UINT_MAX → (pool j).isSome) :
    ∀ (i : ℕ) (w : Bool), i ≤ UINT_MAX → insertScan pool i w = none := by
  intro i w
  induction i, w using insertScan.induct pool with
  | case1 i hocc hge =>
    intro hi
    rw [insertScan]
    simp [hocc, hge]
  | case2 i w hocc hge hw ih =>
    intro hi
    rw [insertScan]
    simp only [hocc, hge, hw, if_true, if_false, ge_iff_le, if_pos]
    exact ih (Nat.zero_le _)
  | case3 i w hocc hge ih =>
    intro hi
    rw [insertScan]
    simp only [hocc, if_true, if_neg hge]
    exact ih (by omega)
  | case4 i w hocc =>
    intro hi
    exact absurd (hall i hi) hocc

end PawnTimerImpl

/-- C10: timer-id freshness.  For a pool with a free `uint32_t` key
(equivalently, fewer than 2^32 timers), `insert` returns a key that was
not in the pool before the call and the new pool maps that key to the
inserted timer; when the pool holds an entry at every `uint32_t` key,
`insert` returns 0 without inserting: the pool is unchanged, while the
persistent cursor `idx` — mutated in place by the scan — is left at
`UINT_MAX`, where the double-wrap exit fires. -/
theorem C10_timer_insert_fresh (s : PawnTimerImpl.State) (timer : ℕ)
    (hidx : s.idx ≤ PawnTimerImpl.UINT_MAX) :
    ((∃ j, j ≤ PawnTimerImpl.UINT_MAX ∧ s.pool j = none) →
      (s.pool (PawnTimerImpl.insert s timer).1 = none
        ∧ ((PawnTimerImpl.insert s timer).2).pool (PawnTimerImpl.insert s timer).1
            = some timer))
    ∧ ((∀ j, j ≤ PawnTimerImpl.UINT_MAX → (s.pool j).isSome) →
        PawnTimerImpl.insert s timer = (0, ⟨s.pool, PawnTimerImpl.UINT_MAX⟩)) := by
  constructor
  · intro hfree
    obtain ⟨r, hr⟩ := PawnTimerImpl.insertScan_some_of_exists s.idx hfree
    have hfresh := PawnTimerImpl.insertScan_free hr
    simp only [PawnTimerImpl.insert, hr]
    exact ⟨hfresh, by simp⟩
  · intro hall
    have h := PawnTimerImpl.insertScan_full hall s.idx false hidx
    simp [PawnTimerImpl.insert, h]

/-- Witness for C10: inserting into an empty pool uses key 1 (the
initial cursor), which was free and now holds the timer; inserting into
a pool occupied at every `uint32_t` key returns 0, leaves the pool
unchanged and leaves the cursor at `UINT_MAX`. -/
theorem C10_timer_insert_fresh_witness :
    (PawnTimerImpl.emptyState.pool (PawnTimerImpl.insert PawnTimerImpl.emptyState 5).1 = none
      ∧ ((PawnTimerImpl.insert PawnTimerImpl.emptyState 5).2).pool
          (PawnTimerImpl.insert PawnTimerImpl.emptyState 5).1 = some 5)
    ∧ PawnTimerImpl.insert PawnTimerImpl.fullState 7
        = (0, ⟨PawnTimerImpl.fullState.pool, PawnTimerImpl.UINT_MAX⟩) := by
  have h1 := C10_timer_insert_fresh PawnTimerImpl.emptyState 5
    (by norm_num [PawnTimerImpl.emptyState, PawnTimerImpl.UINT_MAX])
  have h2 := C10_timer_insert_fresh PawnTimerImpl.fullState 7
    (by norm_num [PawnTimerImpl.fullState, PawnTimerImpl.UINT_MAX])
  exact ⟨h1.1 ⟨0, by norm_num [PawnTimerImpl.UINT_MAX], rfl⟩,
    h2.2 (fun j hj => by simp [PawnTimerImpl.fullState, hj])⟩
